import Mathlib

/-!
Shallow embedding of the `sealed-test` crate (procedural-macro test harness).

Sources embedded:
* `src/derive/src/attributes.rs` — the attribute parser (`SealedTestAttributes`,
  `EnvVar`, `parse_files`, `parse_env`, `parse_cmd`).
* `src/derive/src/gen.rs` — the harness synthesizer (`SealedTest` and its
  builder methods).
* `src/derive/src/lib.rs` — the `sealed_test` macro entry point, which chains
  the builder methods in a fixed order and wraps the result in a
  `rusty_fork_test!` block (one child process per test invocation).

Raw attribute input is modelled as a list of token trees, mirroring the
`proc_macro2` token model: a delimited group (`(...)`, `[...]`, `{...}`) is a
single token holding its content.  Statements generated by the synthesizer are
modelled by the inductive `Stmt`, and their runtime behaviour by a small-step
interpreter `runStmt` / `runStmts` over an explicit process state (private
working directory, private environment map, event trace).
-/

/-- Delimiter of a token group, as in the proc-macro token model. -/
inductive Delim where
  | paren
  | bracket
  | brace

/-- Token trees of the raw attribute input.  A `group` is one token whose
content is the delimited token list, as in `proc_macro2::TokenTree`. -/
inductive Tok where
  | ident (s : String)
  | eq
  | comma
  | litStr (s : String)
  | group (d : Delim) (ts : List Tok)
  | other (s : String)

/-- Mirror of `EnvVar` in `src/derive/src/attributes.rs`. -/
structure EnvVar where
  name : String
  value : String

/-- Mirror of `SealedTestAttributes` in `src/derive/src/attributes.rs`.
`before`/`after` hold the expression tokens, `cmd_before`/`cmd_after` the
verbatim token stream of the brace-delimited command block. -/
structure SealedTestAttributes where
  files : List String
  env : List EnvVar
  before : Option (List Tok)
  after : Option (List Tok)
  cmd_before : Option (List Tok)
  cmd_after : Option (List Tok)

/-- The initial accumulator of `SealedTestAttributes::parse`: every field is
empty/unset (lines 35–42 of `attributes.rs`). -/
def SealedTestAttributes.empty : SealedTestAttributes :=
  { files := [], env := [], before := none, after := none,
    cmd_before := none, cmd_after := none }

/-- Is the token a comma? -/
def Tok.isComma : Tok → Bool
  | .comma => true
  | _ => false

/-- Mirror of the item loop of `SealedTestAttributes::parse_files`
(`attributes.rs` lines 76–83): repeatedly parse a string literal; after each
one, if the stream is nonempty a comma is REQUIRED (both branches of the
source `if`/`else if` end up parsing a comma when the buffer is nonempty, and
the first branch fails when the next token is not a comma); the loop exits
successfully when the next token is not a string literal, ignoring leftovers
(the `while let Ok(...)` pattern). -/
def parseStrItems : List Tok → Except String (List String)
  | .litStr s :: rest =>
      match rest with
      | [] => .ok [s]
      | .comma :: rest2 => (parseStrItems rest2).map (fun fs => s :: fs)
      | _ => .error "expected ,"
  | _ => .ok []

/-- Mirror of `EnvVar::parse` applied to the content of one parenthesized
group (`attributes.rs` lines 22–31): a string literal, a comma, a string
literal; extra content after the second literal is ignored; any other shape
fails (modelled as `none`, which makes the enclosing `while let Ok` loop
stop). -/
def parseEnvVarContent : List Tok → Option EnvVar
  | .litStr n :: .comma :: .litStr v :: _ => some { name := n, value := v }
  | _ => none

/-- Mirror of the item loop of `SealedTestAttributes::parse_env`
(`attributes.rs` lines 94–101): same comma discipline as `parseStrItems`,
with each item a parenthesized `(name, value)` pair.  A head token on which
`EnvVar::parse` fails ends the loop successfully (`while let Ok`). -/
def parseEnvItems : List Tok → Except String (List EnvVar)
  | .group .paren content :: rest =>
      match parseEnvVarContent content with
      | some v =>
          match rest with
          | [] => .ok [v]
          | .comma :: rest2 => (parseEnvItems rest2).map (fun vs => v :: vs)
          | _ => .error "expected ,"
      | none => .ok []
  | _ => .ok []

/-- Mirror of `SealedTestAttributes::parse_files` (`attributes.rs` lines
70–86): `bracketed!` demands a bracket-delimited group, then the item loop
runs on its content; the rest of the outer stream is returned for the caller
to continue. -/
def parse_files (input : List Tok) : Except String (List String × List Tok) :=
  match input with
  | .group .bracket content :: rest =>
      (parseStrItems content).map (fun fs => (fs, rest))
  | _ => .error "expected brackets"

/-- Mirror of `SealedTestAttributes::parse_env` (`attributes.rs` lines
88–104). -/
def parse_env (input : List Tok) : Except String (List EnvVar × List Tok) :=
  match input with
  | .group .bracket content :: rest =>
      (parseEnvItems content).map (fun vs => (vs, rest))
  | _ => .error "expected brackets"

/-- Mirror of `SealedTestAttributes::parse_cmd` (`attributes.rs` lines
106–111): `braced!` demands a brace-delimited group and the whole content
token stream is kept verbatim. -/
def parse_cmd (input : List Tok) : Except String (List Tok × List Tok) :=
  match input with
  | .group .brace content :: rest => .ok (content, rest)
  | _ => .error "expected braces"

/-- Model of `input.parse::<Expr>()` used for the `before`/`after` values:
syn parses one expression, which in the attribute position extends up to (and
not including) the next top-level comma; an empty stream is not an
expression. -/
def parseExprToks (input : List Tok) : Except String (List Tok × List Tok) :=
  let e := input.takeWhile (fun t => ! t.isComma)
  if e.isEmpty then .error "expected expression"
  else .ok (e, input.dropWhile (fun t => ! t.isComma))

/-- Mirror of the optional-comma step at the end of each iteration of
`SealedTestAttributes::parse` (`attributes.rs` lines 60–62): consume one
comma if the next token is a comma. -/
def consumeOptComma : List Tok → List Tok
  | .comma :: rest => rest
  | input => input

/-- Mirror of the main loop of `SealedTestAttributes::parse`
(`attributes.rs` lines 44–63).  Each iteration parses an identifier (a head
token that is not an identifier ends the loop successfully, as the
`while let Ok` does), then requires `=`, then dispatches on the key, each
recognized key ASSIGNING its parsed value to the accumulator field (so a
repeated key silently overwrites the earlier value), and an unrecognized key
aborting with the message of the source `panic` (which suggests the names
files, env, setup and teardown).  The `fuel` argument bounds the number of
iterations; each iteration consumes at least one token, so a fuel of one more
than the input length never runs out. -/
def parseLoop : Nat → List Tok → SealedTestAttributes →
    Except String SealedTestAttributes
  | 0, _, _ => .error "fuel exhausted"
  | fuel + 1, input, acc =>
      match input with
      | .ident name :: rest =>
          match rest with
          | .eq :: rest2 =>
              match name with
              | "files" => do
                  let (fs, r) ← parse_files rest2
                  parseLoop fuel (consumeOptComma r) { acc with files := fs }
              | "env" => do
                  let (vs, r) ← parse_env rest2
                  parseLoop fuel (consumeOptComma r) { acc with env := vs }
              | "before" => do
                  let (e, r) ← parseExprToks rest2
                  parseLoop fuel (consumeOptComma r) { acc with before := some e }
              | "after" => do
                  let (e, r) ← parseExprToks rest2
                  parseLoop fuel (consumeOptComma r) { acc with after := some e }
              | "cmd_before" => do
                  let (c, r) ← parse_cmd rest2
                  parseLoop fuel (consumeOptComma r) { acc with cmd_before := some c }
              | "cmd_after" => do
                  let (c, r) ← parse_cmd rest2
                  parseLoop fuel (consumeOptComma r) { acc with cmd_after := some c }
              | other =>
                  .error ("unexpected attribute " ++ other ++
                    ", use files, env, setup or teardown")
          | _ => .error "expected ="
      | _ => .ok acc

/-- Entry point of the attribute parser: the loop of
`SealedTestAttributes::parse` started on the empty accumulator. -/
def parseAttrs (input : List Tok) : Except String SealedTestAttributes :=
  parseLoop (input.length + 1) input SealedTestAttributes.empty

/-- Filesystem node: a regular file with string contents or a directory with
named entries (the model of the crate root and of the test working
directory). -/
inductive Node where
  | file (contents : String)
  | dir (entries : List (String × Node))

/-- Lookup of a name among directory entries (first match). -/
def findEntry : List (String × Node) → String → Option Node
  | [], _ => none
  | (k, n) :: rest, key => if k = key then some n else findEntry rest key

/-- Insertion of a named entry into a directory, overwriting an existing
entry of the same name (the model of copying a file or directory tree to a
destination name: `std::fs::copy` overwrites a file, and
`fs_extra::dir::copy` with `copy_inside` recreates the tree at the
destination). -/
def insertEntry : List (String × Node) → String → Node → List (String × Node)
  | [], key, n => [(key, n)]
  | (k, m) :: rest, key, n =>
      if k = key then (key, n) :: rest else (k, m) :: insertEntry rest key n

/-- Normal components of a path string: split on the separator and drop the
empty and `.` components, as `std::path::Path::components` normalizes. -/
def pathComponents (p : String) : List String :=
  ((p.toList.splitOn '/').map (fun cs => String.mk cs)).filter
    (fun c => c ≠ "" && c ≠ ".")

/-- Model of `std::path::Path::file_name`: the last normal component, or
`none` when the path is empty, is a root, or ends in `..` — exactly the
inputs on which the `unwrap` in `SealedTest::with_files` (`gen.rs` lines
42–45) would abort macro expansion. -/
def fileName (p : String) : Option String :=
  match (pathComponents p).getLast? with
  | some c => if c = ".." then none else some c
  | none => none

/-- Resolution of a component path inside a filesystem node. -/
def lookupNode : Node → List String → Option Node
  | n, [] => some n
  | .dir es, c :: cs =>
      match findEntry es c with
      | some n => lookupNode n cs
      | none => none
  | .file _, _ :: _ => none

/-- Statements of the synthesized harness body, in one-to-one correspondence
with what `SealedTest` pushes in `gen.rs`:
`newTempDir`/`setCurrentDir`/`letCrateDir` are the three statements of
`SealedTest::new`; `copyFile` is the staging block pushed per `files` entry
(carrying the source path and the destination name computed at macro time);
`setVar` is the `std::env::set_var` statement pushed per `env` pair;
`exprStmt` is the `#expr;` statement of `with_expr`; `runCmds` is the
command-block statement (see `SealedTest.with_cmd_before`).  The remaining
constructors model user-written test-body statements of the kinds the
crate's own tests use: `assertVar` models
`assert_eq!(std::env::var(n), Ok(v))` and `bodyStep` an opaque body
statement that either succeeds or fails (panics / returns an error). -/
inductive Stmt where
  | newTempDir
  | setCurrentDir
  | letCrateDir
  | copyFile (file target : String)
  | setVar (name value : String)
  | exprStmt (e : List Tok)
  | runCmds (c : List Tok)
  | assertVar (name value : String)
  | bodyStep (ok : Bool)

/-- Mirror of `SealedTest` in `src/derive/src/gen.rs`: the ordered statement
list being built. -/
structure SealedTest where
  stmt : List Stmt

/-- Mirror of `SealedTest::new` (`gen.rs` lines 10–18): allocate the
temporary directory, make it the current directory, bind the crate root. -/
def SealedTest.new : SealedTest :=
  { stmt := [.newTempDir, .setCurrentDir, .letCrateDir] }

/-- Mirror of `SealedTest::build` (`gen.rs` lines 20–22). -/
def SealedTest.build (t : SealedTest) : List Stmt :=
  t.stmt

/-- Mirror of `SealedTest::with_expr` (`gen.rs` lines 25–32): push one
`#expr;` statement when the expression is present. -/
def SealedTest.with_expr (t : SealedTest) (expr : Option (List Tok)) : SealedTest :=
  match expr with
  | some e => { stmt := t.stmt ++ [.exprStmt e] }
  | none => t

/-- Mirror of `SealedTest::with_test` (`gen.rs` lines 34–37): append the
test body statements. -/
def SealedTest.with_test (t : SealedTest) (test_stmt : List Stmt) : SealedTest :=
  { stmt := t.stmt ++ test_stmt }

/-- Mirror of `SealedTest::with_files` (`gen.rs` lines 39–73): for each
entry, in order, compute the destination name as the source's final path
component — the `unwrap` on `file_name` aborts macro expansion (modelled by
`none`) when there is no such component — and push one staging statement. -/
def SealedTest.with_files (t : SealedTest) (files : List String) : Option SealedTest :=
  match files with
  | [] => some t
  | f :: rest =>
      match fileName f with
      | none => none
      | some target =>
          SealedTest.with_files { stmt := t.stmt ++ [.copyFile f target] } rest

/-- Mirror of `SealedTest::with_env` (`gen.rs` lines 75–85): push one
`std::env::set_var(name, value)` statement per pair, in declaration order. -/
def SealedTest.with_env (t : SealedTest) (env : List EnvVar) : SealedTest :=
  { stmt := t.stmt ++ env.map (fun v => .setVar v.name v.value) }

/-- Modelled from the spec: `SealedTest::with_cmd_before` is called by
`sealed_test` in `src/derive/src/lib.rs` (for both `cmd_before` and
`cmd_after`) but its definition is not present under `src/`.  Per the spec
(section 4.2, steps 4 and 8), when a command block is present it appends one
statement that runs the block's commands through the shell-command
capability, stopping at and surfacing the first non-zero exit. -/
def SealedTest.with_cmd_before (t : SealedTest) (cmd : Option (List Tok)) : SealedTest :=
  match cmd with
  | some c => { stmt := t.stmt ++ [.runCmds c] }
  | none => t

/-- Mirror of the builder chain in `sealed_test` (`src/derive/src/lib.rs`
lines 17–25): `new`, `with_files(files)`, `with_env(env)`,
`with_cmd_before(cmd_before)`, `with_expr(before)`, `with_test(body)`,
`with_expr(after)`, `with_cmd_before(cmd_after)`, `build`.  The result is
`none` exactly when `with_files` aborts macro expansion. -/
def synthesize (args : SealedTestAttributes) (input : List Stmt) : Option (List Stmt) :=
  (SealedTest.new.with_files args.files).map (fun t =>
    (((((t.with_env args.env).with_cmd_before args.cmd_before).with_expr
      args.before).with_test input).with_expr args.after).with_cmd_before
      args.cmd_after |>.build)

/-- Staging statements of a `files` list, one `copyFile` per entry in order;
`none` when some entry has no final path component (the macro-time abort of
`with_files`). -/
def stagingStmts : List String → Option (List Stmt)
  | [] => some []
  | f :: rest =>
      match fileName f with
      | none => none
      | some target =>
          (stagingStmts rest).map (fun ss => Stmt.copyFile f target :: ss)

/-- Statements appended by `with_expr` for an optional expression. -/
def optExpr : Option (List Tok) → List Stmt
  | some e => [.exprStmt e]
  | none => []

/-- Statements appended by `with_cmd_before` for an optional command block. -/
def optCmd : Option (List Tok) → List Stmt
  | some c => [.runCmds c]
  | none => []

/-- Events recorded while the harness executes, used to state ordering and
"this step ran" properties. -/
inductive Event where
  | allocDir
  | cd
  | copied (file target : String)
  | setVar (name value : String)
  | assertOk (name value : String)
  | cmds (c : List Tok)
  | expr (e : List Tok)
  | bodyRun (ok : Bool)

/-- Failure that stops the straight-line execution of the generated
statement list (a panic or an early error return inside the generated test
function).  `stagingError` carries the source path, the destination name and
the I/O cause, as the panic message of `with_files` does. -/
inductive Failure where
  | stagingError (src target cause : String)
  | cmdError (c : List Tok)
  | exprError (e : List Tok)
  | bodyFailed

/-- Process-private state of one test invocation: the working directory's
entries, the process environment, and the event trace. -/
structure State where
  cwd : List (String × Node)
  env : List (String × String)
  trace : List Event

/-- Set an environment variable (overwriting an existing binding), the model
of `std::env::set_var`. -/
def envSet : List (String × String) → String → String → List (String × String)
  | [], n, v => [(n, v)]
  | (k, w) :: rest, n, v =>
      if k = n then (n, v) :: rest else (k, w) :: envSet rest n v

/-- Read an environment variable, the model of `std::env::var`. -/
def envLookup : List (String × String) → String → Option String
  | [], _ => none
  | (k, w) :: rest, n => if k = n then some w else envLookup rest n

/-- Execution of one generated statement.  `root` is the crate directory
(the source of `files` staging); `cmdOk` and `exprOk` are the outcomes of
the external shell-command capability and of the spliced `before`/`after`
expressions.  A failing statement stops the straight-line sequence, as a
panic or `?` return does in the generated function. -/
def runStmt (root : Node) (cmdOk exprOk : List Tok → Bool) (s : State) :
    Stmt → Except (Failure × State) State
  | .newTempDir => .ok { s with trace := s.trace ++ [.allocDir] }
  | .setCurrentDir => .ok { s with cwd := [], trace := s.trace ++ [.cd] }
  | .letCrateDir => .ok s
  | .copyFile file target =>
      match lookupNode root (pathComponents file) with
      | some n =>
          .ok { s with cwd := insertEntry s.cwd target n,
                       trace := s.trace ++ [.copied file target] }
      | none =>
          .error (.stagingError file target "No such file or directory", s)
  | .setVar n v =>
      .ok { s with env := envSet s.env n v, trace := s.trace ++ [.setVar n v] }
  | .exprStmt e =>
      if exprOk e then .ok { s with trace := s.trace ++ [.expr e] }
      else .error (.exprError e, s)
  | .runCmds c =>
      if cmdOk c then .ok { s with trace := s.trace ++ [.cmds c] }
      else .error (.cmdError c, s)
  | .assertVar n v =>
      if envLookup s.env n = some v
      then .ok { s with trace := s.trace ++ [.assertOk n v] }
      else .error (.bodyFailed, s)
  | .bodyStep ok =>
      if ok then .ok { s with trace := s.trace ++ [.bodyRun true] }
      else .error (.bodyFailed, { s with trace := s.trace ++ [.bodyRun false] })

/-- Sequential execution of a statement list, stopping at the first failing
statement and reporting its failure as the invocation outcome. -/
def runStmts (root : Node) (cmdOk exprOk : List Tok → Bool) :
    List Stmt → State → State × Option Failure
  | [], s => (s, none)
  | st :: rest, s =>
      match runStmt root cmdOk exprOk s st with
      | .ok s1 => runStmts root cmdOk exprOk rest s1
      | .error (f, s1) => (s1, some f)

/-- Fresh state of a newly spawned child process in the model. -/
def initState : State :=
  { cwd := [], env := [], trace := [] }

/-- Modelled from the spec: the `rusty_fork_test!` wrapper emitted by
`sealed_test` (`src/derive/src/lib.rs` lines 29–37) is defined by the
external `rusty-fork` crate, not under `src/`.  Per the spec (section 4.3),
each test invocation runs in its own freshly spawned child process with its
own process-global state.  A running invocation is its remaining statements
plus its private `State`; a finished one is its final state and outcome. -/
inductive ProcState where
  | running (stmts : List Stmt) (s : State)
  | done (s : State) (f : Option Failure)

/-- One scheduling step of an invocation: execute its next statement, or
finish. -/
def stepProc (root : Node) (cmdOk exprOk : List Tok → Bool) :
    ProcState → ProcState
  | .running [] s => .done s none
  | .running (st :: rest) s =>
      match runStmt root cmdOk exprOk s st with
      | .ok s1 => .running rest s1
      | .error (f, s1) => .done s1 f
  | .done s f => .done s f

/-- Interleaved execution of two concurrently running invocations under a
schedule: `true` steps the first invocation, `false` the second.  The two
invocations share nothing: each owns its private `State`. -/
def runPair (root : Node) (cmdOk exprOk : List Tok → Bool) :
    List Bool → ProcState × ProcState → ProcState × ProcState
  | [], p => p
  | true :: sch, (a, b) => runPair root cmdOk exprOk sch (stepProc root cmdOk exprOk a, b)
  | false :: sch, (a, b) => runPair root cmdOk exprOk sch (a, stepProc root cmdOk exprOk b)

/-- Statements appended by `with_env` for an `env` list. -/
def envStmts (vs : List EnvVar) : List Stmt :=
  vs.map (fun v => .setVar v.name v.value)

/-- Sequential application of an `env` list to an environment map, one
`envSet` per pair in declaration order. -/
def applyEnv (vs : List EnvVar) (m : List (String × String)) :
    List (String × String) :=
  vs.foldl (fun m v => envSet m v.name v.value) m

/-- Value of the last occurrence of a name in an `env` list, if any. -/
def lastVal : List EnvVar → String → Option String
  | [], _ => none
  | v :: rest, n =>
      match lastVal rest n with
      | some w => some w
      | none => if v.name = n then some v.value else none

/-- Token rendering of the items of a bracketed `files` list: entries
separated by commas, with an optional trailing comma. -/
def renderStrItems : List String → Bool → List Tok
  | [], _ => []
  | [f], trail => .litStr f :: (if trail then [.comma] else [])
  | f :: rest, trail => .litStr f :: .comma :: renderStrItems rest trail

/-- Token rendering of the items of a bracketed `env` list: parenthesized
`(name, value)` groups separated by commas, with an optional trailing
comma. -/
def renderEnvItems : List EnvVar → Bool → List Tok
  | [], _ => []
  | [v], trail =>
      .group .paren [.litStr v.name, .comma, .litStr v.value] ::
        (if trail then [.comma] else [])
  | v :: rest, trail =>
      .group .paren [.litStr v.name, .comma, .litStr v.value] :: .comma ::
        renderEnvItems rest trail

/-- Token rendering of one top-level `env = [...]` entry. -/
def envEntryToks (vs : List EnvVar) (trail : Bool) : List Tok :=
  [.ident "env", .eq, .group .bracket (renderEnvItems vs trail)]

/-- Token rendering of one top-level `files = [...]` entry. -/
def filesEntryToks (fs : List String) (trail : Bool) : List Tok :=
  [.ident "files", .eq, .group .bracket (renderStrItems fs trail)]

/-- The keys recognized by the parser's dispatch (`attributes.rs` lines
47–53). -/
def validKeys : List String :=
  ["files", "env", "before", "after", "cmd_before", "cmd_after"]

/-- Does the first character list start with the second? -/
def startsWithChars : List Char → List Char → Bool
  | _, [] => true
  | [], _ :: _ => false
  | c :: cs, d :: ds => (c = d) && startsWithChars cs ds

/-- Does the pattern occur contiguously somewhere in the character list? -/
def occursInChars (pat : List Char) : List Char → Bool
  | [] => startsWithChars [] pat
  | c :: rest => startsWithChars (c :: rest) pat || occursInChars pat rest

/-- Does `pat` occur as a contiguous substring of `s`? -/
def containsStr (s pat : String) : Bool :=
  occursInChars pat.toList s.toList

theorem parseStrItems_render :
    ∀ (fs : List String) (b : Bool), parseStrItems (renderStrItems fs b) = .ok fs
  | [], b => by simp [renderStrItems, parseStrItems]
  | [f], b => by cases b <;> simp [renderStrItems, parseStrItems, Except.map]
  | f :: g :: rest, b => by
      have ih := parseStrItems_render (g :: rest) b
      simp only [renderStrItems, parseStrItems, ih]
      rfl

theorem parseEnvItems_render :
    ∀ (vs : List EnvVar) (b : Bool), parseEnvItems (renderEnvItems vs b) = .ok vs
  | [], b => by simp [renderEnvItems, parseEnvItems]
  | [v], b => by cases b <;> simp [renderEnvItems, parseEnvItems, parseEnvVarContent, Except.map]
  | v :: w :: rest, b => by
      have ih := parseEnvItems_render (w :: rest) b
      simp only [renderEnvItems, parseEnvItems, parseEnvVarContent, ih]
      rfl

theorem with_files_eq :
    ∀ (files : List String) (t : SealedTest),
      SealedTest.with_files t files =
        (stagingStmts files).map (fun ss => ⟨t.stmt ++ ss⟩)
  | [], t => by simp [SealedTest.with_files, stagingStmts]
  | f :: rest, t => by
      cases hf : fileName f with
      | none => simp [SealedTest.with_files, stagingStmts, hf]
      | some tg =>
          have ih := with_files_eq rest ⟨t.stmt ++ [.copyFile f tg]⟩
          cases hs : stagingStmts rest <;>
            simp [SealedTest.with_files, stagingStmts, hf, ih, hs, Option.map]

theorem synthesize_decomp (args : SealedTestAttributes) (body : List Stmt)
    (ss : List Stmt) (h : stagingStmts args.files = some ss) :
    synthesize args body =
      some ([.newTempDir, .setCurrentDir, .letCrateDir] ++ ss ++
        envStmts args.env ++ optCmd args.cmd_before ++ optExpr args.before ++
        body ++ optExpr args.after ++ optCmd args.cmd_after) := by
  unfold synthesize
  rw [with_files_eq, h]
  cases args.cmd_before <;> cases args.before <;> cases args.after <;>
    cases args.cmd_after <;>
    simp [SealedTest.new, SealedTest.with_env, SealedTest.with_cmd_before,
      SealedTest.with_expr, SealedTest.with_test, SealedTest.build,
      envStmts, optCmd, optExpr, Option.map]

theorem runStmts_append_ok (root : Node) (co eo : List Tok → Bool) :
    ∀ (xs ys : List Stmt) (s s1 : State),
      runStmts root co eo xs s = (s1, none) →
      runStmts root co eo (xs ++ ys) s = runStmts root co eo ys s1
  | [], ys, s, s1, h => by
      simp [runStmts] at h
      simp [h, runStmts]
  | x :: xs, ys, s, s1, h => by
      simp only [runStmts] at h ⊢
      cases hx : runStmt root co eo s x with
      | ok s2 =>
          rw [hx] at h
          exact runStmts_append_ok root co eo xs ys s2 s1 h
      | error p =>
          rw [hx] at h
          cases p
          simp at h

theorem runStmts_append_err (root : Node) (co eo : List Tok → Bool) :
    ∀ (xs ys : List Stmt) (s s1 : State) (f : Failure),
      runStmts root co eo xs s = (s1, some f) →
      runStmts root co eo (xs ++ ys) s = (s1, some f)
  | [], ys, s, s1, f, h => by simp [runStmts] at h
  | x :: xs, ys, s, s1, f, h => by
      simp only [runStmts] at h ⊢
      cases hx : runStmt root co eo s x with
      | ok s2 =>
          rw [hx] at h
          exact runStmts_append_err root co eo xs ys s2 s1 f h
      | error p =>
          rw [hx] at h
          exact h

theorem envLookup_envSet_self :
    ∀ (m : List (String × String)) (n v : String),
      envLookup (envSet m n v) n = some v
  | [], n, v => by simp [envSet, envLookup]
  | (k, w) :: rest, n, v => by
      by_cases hk : k = n <;>
        simp [envSet, envLookup, hk, envLookup_envSet_self rest n v]

theorem envLookup_envSet_ne :
    ∀ (m : List (String × String)) (n v k : String), k ≠ n →
      envLookup (envSet m n v) k = envLookup m k
  | [], n, v, k, h => by simp [envSet, envLookup, h, Ne.symm h]
  | (k1, w) :: rest, n, v, k, h => by
      by_cases hk : k1 = n
      · subst hk
        simp [envSet, envLookup, h, Ne.symm h]
      · by_cases hk2 : k1 = k
        · subst hk2
          simp [envSet, envLookup, hk, h]
        · simp [envSet, envLookup, hk, hk2, envLookup_envSet_ne rest n v k h]

theorem findEntry_insertEntry_self :
    ∀ (es : List (String × Node)) (k : String) (n : Node),
      findEntry (insertEntry es k n) k = some n
  | [], k, n => by simp [insertEntry, findEntry]
  | (k1, m) :: rest, k, n => by
      by_cases hk : k1 = k <;>
        simp [insertEntry, findEntry, hk, findEntry_insertEntry_self rest k n]

theorem findEntry_insertEntry_ne :
    ∀ (es : List (String × Node)) (k : String) (n : Node) (k2 : String),
      k2 ≠ k → findEntry (insertEntry es k n) k2 = findEntry es k2
  | [], k, n, k2, h => by simp [insertEntry, findEntry, h, Ne.symm h]
  | (k1, m) :: rest, k, n, k2, h => by
      by_cases hk : k1 = k
      · subst hk
        simp [insertEntry, findEntry, h, Ne.symm h]
      · by_cases hk2 : k1 = k2
        · subst hk2
          simp [insertEntry, findEntry, hk, h]
        · simp [insertEntry, findEntry, hk, hk2,
            findEntry_insertEntry_ne rest k n k2 h]

theorem envLookup_applyEnv :
    ∀ (vs : List EnvVar) (m : List (String × String)) (n : String),
      envLookup (applyEnv vs m) n =
        match lastVal vs n with
        | some w => some w
        | none => envLookup m n
  | [], m, n => by simp [applyEnv, lastVal]
  | v :: vs, m, n => by
      have ih := envLookup_applyEnv vs (envSet m v.name v.value) n
      simp only [applyEnv, List.foldl_cons] at ih ⊢
      rw [ih]
      cases hl : lastVal vs n with
      | some w => simp [lastVal, hl]
      | none =>
          simp only [lastVal, hl]
          by_cases hn : v.name = n
          · subst hn
            simp [envLookup_envSet_self]
          · simp [hn, envLookup_envSet_ne m v.name v.value n (Ne.symm hn)]

theorem runStmts_envStmts (root : Node) (co eo : List Tok → Bool) :
    ∀ (vs : List EnvVar) (s : State),
      runStmts root co eo (envStmts vs) s =
        ({ s with env := applyEnv vs s.env,
                  trace := s.trace ++
                    vs.map (fun v => Event.setVar v.name v.value) }, none)
  | [], s => by simp [envStmts, runStmts, applyEnv]
  | v :: vs, s => by
      have ih := runStmts_envStmts root co eo vs
        { s with env := envSet s.env v.name v.value,
                 trace := s.trace ++ [Event.setVar v.name v.value] }
      simp only [envStmts, List.map_cons, runStmts, runStmt] at ih ⊢
      rw [ih]
      simp [applyEnv, List.append_assoc]

theorem run_staging_ok (root : Node) (co eo : List Tok → Bool) :
    ∀ (files : List String) (ss : List Stmt) (s : State),
      stagingStmts files = some ss →
      (∀ f ∈ files, (lookupNode root (pathComponents f)).isSome) →
      (files.filterMap fileName).Nodup →
      ∃ s1, runStmts root co eo ss s = (s1, none) ∧ s1.env = s.env ∧
        (∀ k, k ∉ files.filterMap fileName →
          findEntry s1.cwd k = findEntry s.cwd k) ∧
        (∀ f ∈ files, ∀ tg n, fileName f = some tg →
          lookupNode root (pathComponents f) = some n →
          findEntry s1.cwd tg = some n)
  | [], ss, s, hss, _, _ => by
      simp [stagingStmts] at hss
      subst hss
      exact ⟨s, by simp [runStmts], rfl, fun k _ => rfl, by simp⟩
  | f :: rest, ss, s, hss, hex, hnd => by
      cases hf : fileName f with
      | none => simp [stagingStmts, hf] at hss
      | some tg =>
          cases hrest : stagingStmts rest with
          | none => simp [stagingStmts, hf, hrest] at hss
          | some ss2 =>
              simp [stagingStmts, hf, hrest, Option.map] at hss
              subst hss
              have hl := hex f (List.mem_cons_self f rest)
              cases hlook : lookupNode root (pathComponents f) with
              | none => rw [hlook] at hl; simp at hl
              | some n =>
                  have hfm : (f :: rest).filterMap fileName =
                      tg :: rest.filterMap fileName := by
                    simp [List.filterMap_cons, hf]
                  rw [hfm] at hnd
                  have hnotg : tg ∉ rest.filterMap fileName :=
                    (List.nodup_cons.mp hnd).1
                  have hndrest : (rest.filterMap fileName).Nodup :=
                    (List.nodup_cons.mp hnd).2
                  obtain ⟨s2, hrun, henv, hout, hmem⟩ :=
                    run_staging_ok root co eo rest ss2
                      { s with cwd := insertEntry s.cwd tg n,
                               trace := s.trace ++ [.copied f tg] }
                      hrest (fun g hg => hex g (List.mem_cons_of_mem f hg))
                      hndrest
                  refine ⟨s2, ?_, ?_, ?_, ?_⟩
                  · simp only [runStmts, runStmt, hlook]
                    exact hrun
                  · exact henv
                  · intro k hk
                    rw [hfm] at hk
                    have hk1 : k ≠ tg := fun he => hk (he ▸ List.mem_cons_self tg _)
                    have hk2 : k ∉ rest.filterMap fileName :=
                      fun he => hk (List.mem_cons_of_mem tg he)
                    rw [hout k hk2]
                    exact findEntry_insertEntry_ne s.cwd tg n k hk1
                  · intro g hg tg2 n2 hfg hlg
                    rcases List.mem_cons.mp hg with hgf | hgr
                    · subst hgf
                      rw [hf] at hfg
                      injection hfg with htg
                      rw [hlook] at hlg
                      injection hlg with hn
                      rw [← htg, ← hn]
                      rw [hout tg hnotg]
                      exact findEntry_insertEntry_self s.cwd tg n
                    · exact hmem g hgr tg2 n2 hfg hlg

theorem run_staging_fail (root : Node) (co eo : List Tok → Bool) :
    ∀ (files : List String) (ss : List Stmt) (s : State),
      stagingStmts files = some ss →
      (∃ f ∈ files, lookupNode root (pathComponents f) = none) →
      ∃ g tg s1, g ∈ files ∧ lookupNode root (pathComponents g) = none ∧
        fileName g = some tg ∧
        runStmts root co eo ss s =
          (s1, some (.stagingError g tg "No such file or directory")) ∧
        s1.env = s.env ∧
        ∃ tr, s1.trace = s.trace ++ tr ∧
          ∀ e ∈ tr, ∃ f2 t2, e = Event.copied f2 t2
  | [], ss, s, hss, hex => by
      simp at hex
  | f :: rest, ss, s, hss, hex => by
      cases hf : fileName f with
      | none => simp [stagingStmts, hf] at hss
      | some tg =>
          cases hrest : stagingStmts rest with
          | none => simp [stagingStmts, hf, hrest] at hss
          | some ss2 =>
              simp [stagingStmts, hf, hrest, Option.map] at hss
              subst hss
              cases hlook : lookupNode root (pathComponents f) with
              | none =>
                  refine ⟨f, tg, s, List.mem_cons_self f rest, hlook, hf, ?_,
                    rfl, [], by simp, by simp⟩
                  simp only [runStmts, runStmt, hlook]
              | some n =>
                  have hex2 : ∃ g ∈ rest,
                      lookupNode root (pathComponents g) = none := by
                    obtain ⟨g, hg, hgl⟩ := hex
                    rcases List.mem_cons.mp hg with hgf | hgr
                    · subst hgf
                      rw [hlook] at hgl
                      exact absurd hgl (by simp)
                    · exact ⟨g, hgr, hgl⟩
                  obtain ⟨g, tg2, s2, hgmem, hglook, hgf, hrun, henv, tr, htr, hcop⟩ :=
                    run_staging_fail root co eo rest ss2
                      { s with cwd := insertEntry s.cwd tg n,
                               trace := s.trace ++ [.copied f tg] }
                      hrest hex2
                  refine ⟨g, tg2, s2, List.mem_cons_of_mem f hgmem, hglook, hgf,
                    ?_, henv, Event.copied f tg :: tr, ?_, ?_⟩
                  · simp only [runStmts, runStmt, hlook]
                    exact hrun
                  · rw [htr]
                    simp
                  · intro e he
                    rcases List.mem_cons.mp he with he1 | he2
                    · exact ⟨f, tg, he1⟩
                    · exact hcop e he2

theorem runStmts_setup (root : Node) (co eo : List Tok → Bool) (s : State) :
    runStmts root co eo SealedTest.new.stmt s =
      ({ s with cwd := [], trace := s.trace ++ [Event.allocDir, Event.cd] },
        none) := by
  cases s
  simp [SealedTest.new, runStmts, runStmt]

theorem stepProc_iterate (root : Node) (co eo : List Tok → Bool) :
    ∀ (stmts : List Stmt) (s : State) (n : Nat), stmts.length < n →
      (stepProc root co eo)^[n] (.running stmts s) =
        .done (runStmts root co eo stmts s).1 (runStmts root co eo stmts s).2
  | [], s, n, h => by
      cases n with
      | zero => exact absurd h (by simp)
      | succ m =>
          rw [Function.iterate_succ_apply]
          have hfix : stepProc root co eo (.done s none) = .done s none := rfl
          simp only [stepProc, Function.iterate_fixed hfix]
          simp [runStmts]
  | st :: rest, s, n, h => by
      cases n with
      | zero => exact absurd h (by simp)
      | succ m =>
          rw [Function.iterate_succ_apply]
          simp only [stepProc]
          cases hx : runStmt root co eo s st with
          | ok s1 =>
              have hm : rest.length < m := by
                simpa [Nat.succ_lt_succ_iff] using h
              rw [stepProc_iterate root co eo rest s1 m hm]
              simp only [runStmts, hx]
          | error p =>
              obtain ⟨f, s1⟩ := p
              have hfix : stepProc root co eo (.done s1 f) = .done s1 f := rfl
              rw [Function.iterate_fixed hfix]
              simp only [runStmts, hx]

theorem runPair_fst (root : Node) (co eo : List Tok → Bool) :
    ∀ (sch : List Bool) (a b : ProcState),
      (runPair root co eo sch (a, b)).1 =
        (stepProc root co eo)^[sch.count true] a
  | [], a, b => by simp [runPair]
  | true :: sch, a, b => by
      simp only [runPair, runPair_fst root co eo sch (stepProc root co eo a) b,
        List.count_cons]
      simp [Function.iterate_succ_apply]
  | false :: sch, a, b => by
      simp only [runPair, runPair_fst root co eo sch a (stepProc root co eo b),
        List.count_cons]
      simp

theorem runPair_snd (root : Node) (co eo : List Tok → Bool) :
    ∀ (sch : List Bool) (a b : ProcState),
      (runPair root co eo sch (a, b)).2 =
        (stepProc root co eo)^[sch.count false] b
  | [], a, b => by simp [runPair]
  | true :: sch, a, b => by
      simp only [runPair, runPair_snd root co eo sch (stepProc root co eo a) b,
        List.count_cons]
      simp
  | false :: sch, a, b => by
      simp only [runPair, runPair_snd root co eo sch a (stepProc root co eo b),
        List.count_cons]
      simp [Function.iterate_succ_apply]

theorem parseLoop_env_entry (n : Nat) (vs : List EnvVar) (b : Bool)
    (rest : List Tok) (acc : SealedTestAttributes) :
    parseLoop (n + 1) (envEntryToks vs b ++ rest) acc =
      parseLoop n (consumeOptComma rest) { acc with env := vs } := by
  simp only [envEntryToks, List.cons_append, List.nil_append, parseLoop,
    parse_env, parseEnvItems_render, Except.map]
  rfl

theorem parseLoop_files_entry (n : Nat) (fs : List String) (b : Bool)
    (rest : List Tok) (acc : SealedTestAttributes) :
    parseLoop (n + 1) (filesEntryToks fs b ++ rest) acc =
      parseLoop n (consumeOptComma rest) { acc with files := fs } := by
  simp only [filesEntryToks, List.cons_append, List.nil_append, parseLoop,
    parse_files, parseStrItems_render, Except.map]
  rfl

theorem parseLoop_unknown (n : Nat) (k : String) (rest : List Tok)
    (acc : SealedTestAttributes) (h : k ∉ validKeys) :
    parseLoop (n + 1) (.ident k :: .eq :: rest) acc =
      .error ("unexpected attribute " ++ k ++
        ", use files, env, setup or teardown") := by
  simp only [validKeys, List.mem_cons, List.not_mem_nil, or_false, not_or] at h
  obtain ⟨h1, h2, h3, h4, h5, h6⟩ := h
  simp only [parseLoop, h1, h2, h3, h4, h5, h6]

theorem stagingStmts_none :
    ∀ (files : List String) (f : String),
      f ∈ files → fileName f = none → stagingStmts files = none
  | [], f, hf, _ => absurd hf (List.not_mem_nil f)
  | g :: rest, f, hf, h => by
      rcases List.mem_cons.mp hf with rfl | hr
      · simp [stagingStmts, h]
      · cases hg : fileName g with
        | none => simp [stagingStmts, hg]
        | some t => simp [stagingStmts, hg, stagingStmts_none rest f hr h]

/-- C1: for every configuration that survives macro expansion, the
synthesized harness statement list is exactly, in this order: allocate the
ephemeral working directory and make it the current directory
(`SealedTest.new`), then the `files` staging statements, then the `env` set
statements, then the `cmd_before` block, then the `before` expression, then
the test body, then the `after` expression, then the `cmd_after` block
(`runStmts` executes a statement list front to back, so list order is
execution order). -/
theorem sealed_test_synthesis_order (args : SealedTestAttributes)
    (body ss : List Stmt) (h : stagingStmts args.files = some ss) :
    synthesize args body =
      some ([.newTempDir, .setCurrentDir, .letCrateDir] ++ ss ++
        envStmts args.env ++ optCmd args.cmd_before ++ optExpr args.before ++
        body ++ optExpr args.after ++ optCmd args.cmd_after) :=
  synthesize_decomp args body ss h

/-- Witness for `sealed_test_synthesis_order` at a fully populated concrete
configuration. -/
theorem sealed_test_synthesis_order_witness :
    stagingStmts ["tests/foo"] = some [.copyFile "tests/foo" "foo"] ∧
    synthesize
      { files := ["tests/foo"],
        env := [{ name := "HOME", value := "la maison" }],
        before := some [.ident "setup"], after := some [.ident "teardown"],
        cmd_before := some [.ident "c1"], cmd_after := some [.ident "c2"] }
      [.bodyStep true] =
      some ([.newTempDir, .setCurrentDir, .letCrateDir] ++
        [.copyFile "tests/foo" "foo"] ++
        envStmts [{ name := "HOME", value := "la maison" }] ++
        optCmd (some [.ident "c1"]) ++ optExpr (some [.ident "setup"]) ++
        [.bodyStep true] ++ optExpr (some [.ident "teardown"]) ++
        optCmd (some [.ident "c2"])) :=
  ⟨by rfl, sealed_test_synthesis_order _ [.bodyStep true] _ (by rfl)⟩

/-- C10: a `files` entry whose path has no final component (such as `..` or
the empty string, where `fileName` is `none`) makes `synthesize` abort at
macro-expansion time: no harness statement list is produced at all, so no
process is ever spawned for the test. -/
theorem no_file_name_aborts_synthesis (args : SealedTestAttributes)
    (body : List Stmt) (f : String) (hf : f ∈ args.files)
    (h : fileName f = none) : synthesize args body = none := by
  unfold synthesize
  rw [with_files_eq, stagingStmts_none args.files f hf h]
  rfl

/-- Witness for `no_file_name_aborts_synthesis` on the entry `..`. -/
theorem no_file_name_aborts_synthesis_witness :
    fileName ".." = none ∧
    synthesize { SealedTestAttributes.empty with files := [".."] } [] =
      none :=
  ⟨by rfl, no_file_name_aborts_synthesis _ [] ".." (by simp) (by rfl)⟩

/-- C7: the statements `with_env` generates are one sequential
`std::env::set_var` per pair in declaration order; running them always
succeeds, and the value subsequently read for a name is its last
occurrence's value (the prior environment's value when the name does not
occur), so a repeated name ends up with the last occurrence's value by the
time the test body runs. -/
theorem env_last_write_wins (root : Node) (co eo : List Tok → Bool)
    (vs : List EnvVar) (s : State) (n : String) :
    ((SealedTest.mk []).with_env vs).build = envStmts vs ∧
    runStmts root co eo (envStmts vs) s =
      ({ s with env := applyEnv vs s.env,
                trace := s.trace ++
                  vs.map (fun v => Event.setVar v.name v.value) }, none) ∧
    envLookup (applyEnv vs s.env) n =
      (match lastVal vs n with
       | some w => some w
       | none => envLookup s.env n) :=
  ⟨by simp [SealedTest.with_env, SealedTest.build, envStmts],
   runStmts_envStmts root co eo vs s,
   envLookup_applyEnv vs s.env n⟩

/-- C3 counterexample: a raw input that gives the `env` key twice parses
SUCCESSFULLY — there is no duplicate-key error anywhere in the parser — and
the second occurrence has silently overwritten the first. -/
theorem duplicate_env_key_parses_ok_cex :
    parseAttrs
      [.ident "env", .eq,
       .group .bracket [.group .paren [.litStr "A", .comma, .litStr "a"]],
       .comma,
       .ident "env", .eq,
       .group .bracket [.group .paren [.litStr "B", .comma, .litStr "b"]]] =
      .ok { SealedTestAttributes.empty with
              env := [{ name := "B", value := "b" }] } := by
  rfl

/-- C3 amended: a raw input in which the same key appears twice is accepted;
each occurrence is parsed and assigned to the accumulator field, so the last
occurrence silently overwrites the earlier one (here for `env`, with
arbitrary payloads and trailing-comma choices). -/
theorem duplicate_key_last_wins (vs1 vs2 : List EnvVar) (b1 b2 c : Bool) :
    parseAttrs (envEntryToks vs1 b1 ++ Tok.comma ::
        (envEntryToks vs2 b2 ++ (if c then [Tok.comma] else []))) =
      .ok { SealedTestAttributes.empty with env := vs2 } := by
  unfold parseAttrs
  rw [parseLoop_env_entry]
  simp only [consumeOptComma]
  have hl : (envEntryToks vs1 b1 ++ Tok.comma ::
      (envEntryToks vs2 b2 ++ (if c then [Tok.comma] else []))).length =
      (if c then [Tok.comma] else ([] : List Tok)).length + 6 + 1 := by
    cases c <;> simp [envEntryToks]
  rw [hl, parseLoop_env_entry]
  cases c <;> rfl

/-- C4 counterexample: for the unknown key `bogus`, parsing does fail
naming the key, but the error does NOT list the valid key set: the valid
keys `before`, `after`, `cmd_before` and `cmd_after` do not occur in the
message, which instead suggests `setup` and `teardown` — names the parser
itself does not recognize. -/
theorem unknown_key_message_cex :
    parseAttrs [.ident "bogus", .eq, .litStr "x"] =
      .error "unexpected attribute bogus, use files, env, setup or teardown" ∧
    "before" ∈ validKeys ∧
    containsStr
      "unexpected attribute bogus, use files, env, setup or teardown"
      "before" = false ∧
    "setup" ∉ validKeys ∧
    containsStr
      "unexpected attribute bogus, use files, env, setup or teardown"
      "setup" = true :=
  ⟨by rfl, by decide, by rfl, by decide, by rfl⟩

/-- C4 amended: for every raw input whose first entry has a key outside the
recognized set, parsing fails immediately — before the entry's value or the
rest of the input is even examined — with an error naming the offending
key; the message, however, suggests the fixed names `files`, `env`, `setup`
and `teardown` rather than listing the valid key set. -/
theorem unknown_key_error_message (k : String) (rest : List Tok)
    (h : k ∉ validKeys) :
    parseAttrs (.ident k :: .eq :: rest) =
      .error ("unexpected attribute " ++ k ++
        ", use files, env, setup or teardown") :=
  parseLoop_unknown (rest.length + 2) k rest SealedTestAttributes.empty h

/-- Witness for `unknown_key_error_message` on the key `bogus`. -/
theorem unknown_key_error_message_witness :
    "bogus" ∉ validKeys ∧
    parseAttrs [.ident "bogus", .eq, .group .bracket []] =
      .error "unexpected attribute bogus, use files, env, setup or teardown" :=
  ⟨by decide, unknown_key_error_message "bogus" [.group .bracket []]
    (by decide)⟩

/-- C8 counterexample: inside a bracketed `files` list, two entries NOT
separated by the delimiter are rejected — the parser demands a comma after
each non-final entry — so entries inside a bracketed list are not
"optionally delimiter-terminated". -/
theorem inner_list_requires_comma_cex :
    parseAttrs
      [.ident "files", .eq, .group .bracket [.litStr "a", .litStr "b"]] =
      .error "expected ," := by
  rfl

/-- C8 amended: the top level accepts zero or more `key = value` entries,
never requires a delimiter after the final entry, and does not require a
delimiter between consecutive entries either; inside a bracketed `files` or
`env` list, however, a comma is REQUIRED between consecutive entries, while
a trailing comma after the final entry stays optional. -/
theorem attribute_delimiter_rules (fs : List String) (vs : List EnvVar)
    (b c d : Bool) :
    parseAttrs [] = .ok SealedTestAttributes.empty ∧
    parseAttrs (filesEntryToks fs b ++ (if c then [Tok.comma] else [])) =
      .ok { SealedTestAttributes.empty with files := fs } ∧
    parseAttrs (filesEntryToks fs b ++ envEntryToks vs d) =
      .ok { SealedTestAttributes.empty with files := fs, env := vs } := by
  refine ⟨by rfl, ?_, ?_⟩
  · cases c <;>
      · unfold parseAttrs
        rw [parseLoop_files_entry]
        rfl
  · unfold parseAttrs
    rw [parseLoop_files_entry]
    have hcc : consumeOptComma (envEntryToks vs d) = envEntryToks vs d := by
      rfl
    rw [hcc]
    have hl : (filesEntryToks fs b ++ envEntryToks vs d).length = 5 + 1 := by
      simp [filesEntryToks, envEntryToks]
    rw [hl]
    rw [show envEntryToks vs d = envEntryToks vs d ++ [] from
      (List.append_nil _).symm]
    rw [parseLoop_env_entry]
    rfl

/-- C2 counterexample: a configuration with an `after` expression and a
`cmd_after` block whose test body fails.  The generated harness is a
straight-line statement sequence, so the failing body stops execution: the
reported outcome is indeed the body's failure, but the `after` expression
and the `cmd_after` block never execute (their events are absent from the
trace), contrary to the claim. -/
theorem failing_body_skips_teardown_cex :
    synthesize { SealedTestAttributes.empty with
        after := some [.ident "teardown"],
        cmd_after := some [.ident "cleanup"] } [.bodyStep false] =
      some [.newTempDir, .setCurrentDir, .letCrateDir, .bodyStep false,
        .exprStmt [.ident "teardown"], .runCmds [.ident "cleanup"]] ∧
    runStmts (.dir []) (fun _ => true) (fun _ => true)
      [.newTempDir, .setCurrentDir, .letCrateDir, .bodyStep false,
        .exprStmt [.ident "teardown"], .runCmds [.ident "cleanup"]]
      initState =
      ({ cwd := [], env := [],
         trace := [.allocDir, .cd, .bodyRun false] }, some .bodyFailed) ∧
    Event.expr [.ident "teardown"] ∉
      [Event.allocDir, Event.cd, Event.bodyRun false] ∧
    Event.cmds [.ident "cleanup"] ∉
      [Event.allocDir, Event.cd, Event.bodyRun false] :=
  ⟨by rfl, by rfl, by simp, by simp⟩

/-- C2 amended: when the setup prefix (allocation, staging, env,
`cmd_before`, `before`) succeeds and the test body then fails, the overall
reported outcome is the body's failure, but the `after` expression and the
`cmd_after` block do NOT execute: the run ends at the failing body
statement, and no `after`/`cmd_after` event is added to the trace. -/
theorem failing_body_skips_after_hooks (root : Node) (co eo : List Tok → Bool)
    (args : SealedTestAttributes) (ss l : List Stmt) (ea ca : List Tok)
    (s0 s1 : State)
    (hss : stagingStmts args.files = some ss)
    (haf : args.after = some ea) (hca : args.cmd_after = some ca)
    (hl : synthesize args [.bodyStep false] = some l)
    (hpre : runStmts root co eo
      ([.newTempDir, .setCurrentDir, .letCrateDir] ++ ss ++
        envStmts args.env ++ optCmd args.cmd_before ++ optExpr args.before)
      s0 = (s1, none)) :
    runStmts root co eo l s0 =
      ({ s1 with trace := s1.trace ++ [Event.bodyRun false] },
        some .bodyFailed) ∧
    (Event.expr ea ∉ s1.trace →
      Event.expr ea ∉ s1.trace ++ [Event.bodyRun false]) ∧
    (Event.cmds ca ∉ s1.trace →
      Event.cmds ca ∉ s1.trace ++ [Event.bodyRun false]) := by
  refine ⟨?_, ?_, ?_⟩
  · rw [synthesize_decomp args _ ss hss] at hl
    injection hl with hl
    subst hl
    have hassoc :
        [Stmt.newTempDir, .setCurrentDir, .letCrateDir] ++ ss ++
          envStmts args.env ++ optCmd args.cmd_before ++
          optExpr args.before ++ [.bodyStep false] ++ optExpr args.after ++
          optCmd args.cmd_after =
        ([Stmt.newTempDir, .setCurrentDir, .letCrateDir] ++ ss ++
          envStmts args.env ++ optCmd args.cmd_before ++
          optExpr args.before) ++
          ([.bodyStep false] ++
            (optExpr args.after ++ optCmd args.cmd_after)) := by
      simp [List.append_assoc]
    rw [hassoc, runStmts_append_ok root co eo _ _ s0 s1 hpre]
    simp [runStmts, runStmt]
  · intro hnm
    simpa using hnm
  · intro hnm
    simpa using hnm

/-- Witness for `failing_body_skips_after_hooks` on a concrete
configuration with `after` and `cmd_after` present and a failing body. -/
theorem failing_body_skips_after_hooks_witness :
    stagingStmts ([] : List String) = some [] ∧
    synthesize { SealedTestAttributes.empty with
        after := some [.ident "teardown"],
        cmd_after := some [.ident "cleanup"] } [.bodyStep false] =
      some [.newTempDir, .setCurrentDir, .letCrateDir, .bodyStep false,
        .exprStmt [.ident "teardown"], .runCmds [.ident "cleanup"]] ∧
    runStmts (.dir []) (fun _ => true) (fun _ => true)
      ([.newTempDir, .setCurrentDir, .letCrateDir] ++ [] ++ envStmts [] ++
        optCmd none ++ optExpr none) initState =
      ({ cwd := [], env := [], trace := [Event.allocDir, Event.cd] },
        none) ∧
    (runStmts (.dir []) (fun _ => true) (fun _ => true)
      [.newTempDir, .setCurrentDir, .letCrateDir, .bodyStep false,
        .exprStmt [.ident "teardown"], .runCmds [.ident "cleanup"]]
      initState =
      (({ cwd := [], env := [],
          trace := [Event.allocDir, Event.cd] ++ [Event.bodyRun false] } :
            State),
        some .bodyFailed) ∧
    (Event.expr [.ident "teardown"] ∉
        ([Event.allocDir, Event.cd] : List Event) →
      Event.expr [.ident "teardown"] ∉
        [Event.allocDir, Event.cd] ++ [Event.bodyRun false]) ∧
    (Event.cmds [.ident "cleanup"] ∉
        ([Event.allocDir, Event.cd] : List Event) →
      Event.cmds [.ident "cleanup"] ∉
        [Event.allocDir, Event.cd] ++ [Event.bodyRun false])) :=
  ⟨by rfl, by rfl, by rfl,
    failing_body_skips_after_hooks (.dir []) (fun _ => true) (fun _ => true)
      { SealedTestAttributes.empty with
          after := some [.ident "teardown"],
          cmd_after := some [.ident "cleanup"] }
      [] _ [.ident "teardown"] [.ident "cleanup"] initState
      { cwd := [], env := [], trace := [Event.allocDir, Event.cd] }
      (by rfl) (by rfl) (by rfl) (by rfl) (by rfl)⟩

/-- C5: when every `files` entry resolves under the project root and the
macro-computed destination names do not collide, the staging statements all
succeed, and afterwards the working directory contains, under each entry's
final path component: the identical file contents when the source is a
regular file, and the identical directory tree (all children included) when
the source is a directory. -/
theorem files_staging_correct (root : Node) (co eo : List Tok → Bool)
    (files : List String) (ss : List Stmt) (s : State)
    (hss : stagingStmts files = some ss)
    (hex : ∀ f ∈ files, (lookupNode root (pathComponents f)).isSome)
    (hnd : (files.filterMap fileName).Nodup) :
    ∃ s1, runStmts root co eo ss s = (s1, none) ∧
      (∀ f ∈ files, ∀ tg c, fileName f = some tg →
        lookupNode root (pathComponents f) = some (.file c) →
        findEntry s1.cwd tg = some (.file c)) ∧
      (∀ f ∈ files, ∀ tg es, fileName f = some tg →
        lookupNode root (pathComponents f) = some (.dir es) →
        findEntry s1.cwd tg = some (.dir es)) := by
  obtain ⟨s1, hrun, _, _, hmem⟩ :=
    run_staging_ok root co eo files ss s hss hex hnd
  exact ⟨s1, hrun,
    fun f hf tg c h1 h2 => hmem f hf tg _ h1 h2,
    fun f hf tg es h1 h2 => hmem f hf tg _ h1 h2⟩

/-- Witness for `files_staging_correct` on a root holding the regular file
`tests/foo` and the directory `tests/baz` containing `buzz`. -/
theorem files_staging_correct_witness :
    stagingStmts ["tests/foo", "tests/baz"] =
      some [.copyFile "tests/foo" "foo", .copyFile "tests/baz" "baz"] ∧
    (∀ f ∈ ["tests/foo", "tests/baz"],
      (lookupNode
        (.dir [("tests", .dir [("foo", .file "hello"),
          ("baz", .dir [("buzz", .file "bzz")])])])
        (pathComponents f)).isSome) ∧
    (["tests/foo", "tests/baz"].filterMap fileName).Nodup ∧
    (∃ s1, runStmts
        (.dir [("tests", .dir [("foo", .file "hello"),
          ("baz", .dir [("buzz", .file "bzz")])])])
        (fun _ => true) (fun _ => true)
        [.copyFile "tests/foo" "foo", .copyFile "tests/baz" "baz"]
        initState = (s1, none) ∧
      (∀ f ∈ ["tests/foo", "tests/baz"], ∀ tg c, fileName f = some tg →
        lookupNode
          (.dir [("tests", .dir [("foo", .file "hello"),
            ("baz", .dir [("buzz", .file "bzz")])])])
          (pathComponents f) = some (.file c) →
        findEntry s1.cwd tg = some (.file c)) ∧
      (∀ f ∈ ["tests/foo", "tests/baz"], ∀ tg es, fileName f = some tg →
        lookupNode
          (.dir [("tests", .dir [("foo", .file "hello"),
            ("baz", .dir [("buzz", .file "bzz")])])])
          (pathComponents f) = some (.dir es) →
        findEntry s1.cwd tg = some (.dir es))) :=
  ⟨by rfl, by decide, by decide,
    files_staging_correct _ (fun _ => true) (fun _ => true)
      ["tests/foo", "tests/baz"] _ initState (by rfl) (by decide)
      (by decide)⟩

/-- C6: if some `files` entry does not resolve under the project root, the
harness run fails with a staging error that names the missing source (and
the destination and I/O cause, as the generated panic message does), the
run never gets past the staging statements — so the test body never runs —
and the trace holds no body event. -/
theorem missing_source_aborts_before_body (root : Node)
    (co eo : List Tok → Bool) (args : SealedTestAttributes)
    (body ss l : List Stmt)
    (hss : stagingStmts args.files = some ss)
    (hl : synthesize args body = some l)
    (hex : ∃ f ∈ args.files, lookupNode root (pathComponents f) = none) :
    ∃ g tg s1, g ∈ args.files ∧
      lookupNode root (pathComponents g) = none ∧ fileName g = some tg ∧
      runStmts root co eo l initState =
        (s1, some (.stagingError g tg "No such file or directory")) ∧
      runStmts root co eo l initState =
        runStmts root co eo (SealedTest.new.stmt ++ ss) initState ∧
      (∀ ok, Event.bodyRun ok ∉ s1.trace) := by
  have hsetup : runStmts root co eo SealedTest.new.stmt initState =
      ({ cwd := [], env := [],
         trace := [Event.allocDir, Event.cd] }, none) := by
    rfl
  obtain ⟨g, tg, s1, hg, hgl, hgf, hrun, henv, tr, htr, hcop⟩ :=
    run_staging_fail root co eo args.files ss
      { cwd := [], env := [], trace := [Event.allocDir, Event.cd] } hss hex
  have hfull : runStmts root co eo (SealedTest.new.stmt ++ ss) initState =
      (s1, some (.stagingError g tg "No such file or directory")) := by
    rw [runStmts_append_ok root co eo _ _ initState _ hsetup]
    exact hrun
  rw [synthesize_decomp args body ss hss] at hl
  injection hl with hl
  subst hl
  have hassoc :
      [Stmt.newTempDir, .setCurrentDir, .letCrateDir] ++ ss ++
        envStmts args.env ++ optCmd args.cmd_before ++
        optExpr args.before ++ body ++ optExpr args.after ++
        optCmd args.cmd_after =
      (SealedTest.new.stmt ++ ss) ++
        (envStmts args.env ++ optCmd args.cmd_before ++
          optExpr args.before ++ body ++ optExpr args.after ++
          optCmd args.cmd_after) := by
    simp [SealedTest.new, List.append_assoc]
  have hlrun : runStmts root co eo
      ([Stmt.newTempDir, .setCurrentDir, .letCrateDir] ++ ss ++
        envStmts args.env ++ optCmd args.cmd_before ++
        optExpr args.before ++ body ++ optExpr args.after ++
        optCmd args.cmd_after) initState =
      (s1, some (.stagingError g tg "No such file or directory")) := by
    rw [hassoc]
    exact runStmts_append_err root co eo _ _ initState s1 _ hfull
  refine ⟨g, tg, s1, hg, hgl, hgf, hlrun, ?_, ?_⟩
  · rw [hlrun, hfull]
  · intro ok hmem
    rw [htr] at hmem
    rcases List.mem_append.mp hmem with h1 | h2
    · simp at h1
    · obtain ⟨f2, t2, he⟩ := hcop _ h2
      simp at he

/-- Witness for `missing_source_aborts_before_body` on the single missing
entry `ghost` over an empty project root. -/
theorem missing_source_aborts_before_body_witness :
    stagingStmts ["ghost"] = some [.copyFile "ghost" "ghost"] ∧
    synthesize { SealedTestAttributes.empty with files := ["ghost"] }
      [.bodyStep true] =
      some [.newTempDir, .setCurrentDir, .letCrateDir,
        .copyFile "ghost" "ghost", .bodyStep true] ∧
    (∃ g tg s1, g ∈ ({ SealedTestAttributes.empty with
        files := ["ghost"] } : SealedTestAttributes).files ∧
      lookupNode (.dir []) (pathComponents g) = none ∧
      fileName g = some tg ∧
      runStmts (.dir []) (fun _ => true) (fun _ => true)
        [.newTempDir, .setCurrentDir, .letCrateDir,
          .copyFile "ghost" "ghost", .bodyStep true] initState =
        (s1, some (.stagingError g tg "No such file or directory")) ∧
      runStmts (.dir []) (fun _ => true) (fun _ => true)
        [.newTempDir, .setCurrentDir, .letCrateDir,
          .copyFile "ghost" "ghost", .bodyStep true] initState =
        runStmts (.dir []) (fun _ => true) (fun _ => true)
          (SealedTest.new.stmt ++ [.copyFile "ghost" "ghost"]) initState ∧
      (∀ ok, Event.bodyRun ok ∉ s1.trace)) :=
  ⟨by rfl, by rfl,
    missing_source_aborts_before_body (.dir []) (fun _ => true)
      (fun _ => true) { SealedTestAttributes.empty with files := ["ghost"] }
      [.bodyStep true] [.copyFile "ghost" "ghost"] _ (by rfl) (by rfl)
      ⟨"ghost", by simp, by rfl⟩⟩

/-- C9: two concurrently running test invocations, each a freshly spawned
child process owning its private state (the `rusty-fork` wrapper, modelled
by `ProcState`/`runPair`): invocation A sets `VAR=foo` and asserts it,
invocation B sets `VAR=bar` and asserts it.  Under EVERY interleaving
schedule that lets both finish, each invocation ends exactly in its own
sequential run's final state — B's steps never affect A and vice versa —
both bodies succeed, and each deterministically reads back its own value,
whatever the other wrote. -/
theorem isolated_env_noninterference (root : Node) (co eo : List Tok → Bool)
    (sch : List Bool) (sA sB : State) (lA lB : List Stmt)
    (hA : synthesize SealedTestAttributes.empty
      [.setVar "VAR" "foo", .assertVar "VAR" "foo"] = some lA)
    (hB : synthesize SealedTestAttributes.empty
      [.setVar "VAR" "bar", .assertVar "VAR" "bar"] = some lB)
    (hcA : lA.length < sch.count true)
    (hcB : lB.length < sch.count false) :
    (runPair root co eo sch (.running lA sA, .running lB sB)).1 =
      .done (runStmts root co eo lA sA).1 none ∧
    envLookup (runStmts root co eo lA sA).1.env "VAR" = some "foo" ∧
    (runPair root co eo sch (.running lA sA, .running lB sB)).2 =
      .done (runStmts root co eo lB sB).1 none ∧
    envLookup (runStmts root co eo lB sB).1.env "VAR" = some "bar" := by
  have hA2 : lA = [.newTempDir, .setCurrentDir, .letCrateDir,
      .setVar "VAR" "foo", .assertVar "VAR" "foo"] := by
    have he : synthesize SealedTestAttributes.empty
        [.setVar "VAR" "foo", .assertVar "VAR" "foo"] =
        some [.newTempDir, .setCurrentDir, .letCrateDir,
          .setVar "VAR" "foo", .assertVar "VAR" "foo"] := by rfl
    rw [he] at hA
    injection hA with hA
    exact hA.symm
  have hB2 : lB = [.newTempDir, .setCurrentDir, .letCrateDir,
      .setVar "VAR" "bar", .assertVar "VAR" "bar"] := by
    have he : synthesize SealedTestAttributes.empty
        [.setVar "VAR" "bar", .assertVar "VAR" "bar"] =
        some [.newTempDir, .setCurrentDir, .letCrateDir,
          .setVar "VAR" "bar", .assertVar "VAR" "bar"] := by rfl
    rw [he] at hB
    injection hB with hB
    exact hB.symm
  subst hA2
  subst hB2
  have hsndA : (runStmts root co eo [.newTempDir, .setCurrentDir,
      .letCrateDir, .setVar "VAR" "foo", .assertVar "VAR" "foo"] sA).2 =
      none := by
    simp [runStmts, runStmt, envLookup_envSet_self]
  have hsndB : (runStmts root co eo [.newTempDir, .setCurrentDir,
      .letCrateDir, .setVar "VAR" "bar", .assertVar "VAR" "bar"] sB).2 =
      none := by
    simp [runStmts, runStmt, envLookup_envSet_self]
  refine ⟨?_, ?_, ?_, ?_⟩
  · rw [runPair_fst root co eo sch _ _,
      stepProc_iterate root co eo _ sA _ hcA, hsndA]
  · simp [runStmts, runStmt, envLookup_envSet_self]
  · rw [runPair_snd root co eo sch _ _,
      stepProc_iterate root co eo _ sB _ hcB, hsndB]
  · simp [runStmts, runStmt, envLookup_envSet_self]

/-- Witness for `isolated_env_noninterference` on a concrete schedule that
first steps invocation A six times, then invocation B six times. -/
theorem isolated_env_noninterference_witness :
    synthesize SealedTestAttributes.empty
      [.setVar "VAR" "foo", .assertVar "VAR" "foo"] =
      some [.newTempDir, .setCurrentDir, .letCrateDir,
        .setVar "VAR" "foo", .assertVar "VAR" "foo"] ∧
    synthesize SealedTestAttributes.empty
      [.setVar "VAR" "bar", .assertVar "VAR" "bar"] =
      some [.newTempDir, .setCurrentDir, .letCrateDir,
        .setVar "VAR" "bar", .assertVar "VAR" "bar"] ∧
    ([.newTempDir, .setCurrentDir, .letCrateDir, .setVar "VAR" "foo",
        .assertVar "VAR" "foo"] : List Stmt).length <
      ([true, true, true, true, true, true, false, false, false, false,
        false, false] : List Bool).count true ∧
    ([.newTempDir, .setCurrentDir, .letCrateDir, .setVar "VAR" "bar",
        .assertVar "VAR" "bar"] : List Stmt).length <
      ([true, true, true, true, true, true, false, false, false, false,
        false, false] : List Bool).count false ∧
    ((runPair (.dir []) (fun _ => true) (fun _ => true)
        [true, true, true, true, true, true, false, false, false, false,
          false, false]
        (.running [.newTempDir, .setCurrentDir, .letCrateDir,
            .setVar "VAR" "foo", .assertVar "VAR" "foo"] initState,
         .running [.newTempDir, .setCurrentDir, .letCrateDir,
            .setVar "VAR" "bar", .assertVar "VAR" "bar"] initState)).1 =
      .done (runStmts (.dir []) (fun _ => true) (fun _ => true)
        [.newTempDir, .setCurrentDir, .letCrateDir, .setVar "VAR" "foo",
          .assertVar "VAR" "foo"] initState).1 none ∧
    envLookup (runStmts (.dir []) (fun _ => true) (fun _ => true)
      [.newTempDir, .setCurrentDir, .letCrateDir, .setVar "VAR" "foo",
        .assertVar "VAR" "foo"] initState).1.env "VAR" = some "foo" ∧
    (runPair (.dir []) (fun _ => true) (fun _ => true)
        [true, true, true, true, true, true, false, false, false, false,
          false, false]
        (.running [.newTempDir, .setCurrentDir, .letCrateDir,
            .setVar "VAR" "foo", .assertVar "VAR" "foo"] initState,
         .running [.newTempDir, .setCurrentDir, .letCrateDir,
            .setVar "VAR" "bar", .assertVar "VAR" "bar"] initState)).2 =
      .done (runStmts (.dir []) (fun _ => true) (fun _ => true)
        [.newTempDir, .setCurrentDir, .letCrateDir, .setVar "VAR" "bar",
          .assertVar "VAR" "bar"] initState).1 none ∧
    envLookup (runStmts (.dir []) (fun _ => true) (fun _ => true)
      [.newTempDir, .setCurrentDir, .letCrateDir, .setVar "VAR" "bar",
        .assertVar "VAR" "bar"] initState).1.env "VAR" = some "bar") :=
  ⟨by rfl, by rfl, by decide, by decide,
    isolated_env_noninterference (.dir []) (fun _ => true) (fun _ => true)
      [true, true, true, true, true, true, false, false, false, false,
        false, false] initState initState _ _ (by rfl) (by rfl)
      (by decide) (by decide)⟩
